import Mathlib

/-!
Verification of the client-side network interception layer
(`packages/playwright-core/src/client/network.ts`): the `Request` override
overlay and accessors, `RawHeaders`, the `Route` resolution state machine,
`Route._innerFulfill`, `RouteHandler` expiry, and the `WebSocketRoute`
duplex relay.  JavaScript runtime builtins used by that file
(`JSON.stringify`, `JSON.parse`, `URLSearchParams`, `Buffer` base64 and
UTF-8 conversions) are modelled explicitly below; `Buffer` values are
represented by their UTF-8 string contents except where raw bytes matter
(base64 relay frames), where they are byte lists.
-/

namespace PwNetwork

/-- Model of the JavaScript truthiness fallback `a || b` for string-typed
`a` that may be `undefined` (`none`): the empty string is falsy. -/
def jsOrStr : Option String → String → String
  | some s, d => if s = "" then d else s
  | none, d => d

/-- ASCII lowercasing of one character: model of the character mapping of
JavaScript `toLowerCase` on the ASCII range (header names and the strings
in the claims are ASCII). -/
def lowerChar (c : Char) : Char :=
  if 'A' ≤ c ∧ c ≤ 'Z' then Char.ofNat (c.toNat + 32) else c

/-- Model of JavaScript `s.toLowerCase()` (ASCII range). -/
def lowerStr (s : String) : String :=
  ⟨s.data.map lowerChar⟩

/-- Split a character list on a nonempty separator (fuel-based; fuel
bounding the input length suffices).  `acc` holds the current segment in
reverse. -/
def splitSepAux (sep : List Char) : Nat → List Char → List Char → List (List Char)
  | 0, acc, rest => [acc.reverse ++ rest]
  | _ + 1, acc, [] => [acc.reverse]
  | fuel + 1, acc, c :: cs =>
    if sep.isPrefixOf (c :: cs) then
      acc.reverse :: splitSepAux sep fuel [] ((c :: cs).drop sep.length)
    else splitSepAux sep fuel (c :: acc) cs

/-- Model of JavaScript `a.split(b)` for a nonempty separator `b`. -/
def jsSplit (a b : String) : List String :=
  (splitSepAux b.data (a.data.length + 1) [] a.data).map fun cs => ⟨cs⟩

/-- Model of JavaScript `a.includes(b)` substring containment for strings:
`b` occurs contiguously in `a` — a nonempty pattern occurs iff splitting
on it yields more than one part. -/
def jsIncludes (a b : String) : Bool :=
  if b = "" then true else (jsSplit a b).length > 1

/-- Lookup in a JavaScript-object-as-association-list: the value at the
first matching key, `none` when absent (`undefined`). -/
def objLookup (l : List (String × String)) (k : String) : Option String :=
  match l.find? (fun p => p.1 = k) with
  | some p => some p.2
  | none => none

/-- Model of JavaScript object assignment `o[k] = v` on an ordered
association list: an existing key keeps its original position and has its
value replaced; a new key is appended. -/
def upsert (l : List (String × String)) (k v : String) : List (String × String) :=
  if l.any (fun p => p.1 = k) then
    l.map (fun p => if p.1 = k then (k, v) else p)
  else
    l ++ [(k, v)]

/-- Decimal digits of a natural number, most significant first
(fuel-based; fuel `n+1` suffices for input `n`). -/
def natDigitsAux : Nat → Nat → List Char
  | 0, _ => []
  | fuel + 1, n =>
    if n < 10 then [Nat.digitChar n]
    else natDigitsAux fuel (n / 10) ++ [Nat.digitChar (n % 10)]

/-- Decimal string of a natural number (model of JavaScript number
formatting for nonnegative integers). -/
def natStr (n : Nat) : String :=
  ⟨natDigitsAux (n + 1) n⟩

/-- Decimal string of an integer (model of JavaScript number formatting
for integers). -/
def intStr (n : Int) : String :=
  if n < 0 then "-" ++ natStr n.natAbs else natStr n.natAbs

/-- JSON values as passed to `fulfill({ json })`, `postDataJSON()` and the
override overlay.  Numbers are modelled as integers (the claims under
verification only involve integer numerals). -/
inductive JsonValue where
  | null : JsonValue
  | bool (b : Bool) : JsonValue
  | num (n : Int) : JsonValue
  | str (s : String) : JsonValue
  | arr (xs : List JsonValue) : JsonValue
  | obj (kvs : List (String × JsonValue)) : JsonValue

/-- JavaScript truthiness of a JSON value: `null`, `false`, `0` and the
empty string are falsy; every array and object is truthy. -/
def JsonValue.truthy : JsonValue → Bool
  | .null => false
  | .bool b => b
  | .num n => n ≠ 0
  | .str s => s ≠ ""
  | .arr _ => true
  | .obj _ => true

/-- JSON string-literal escaping used by `JSON.stringify`. -/
def jsonEscapeChar (c : Char) : List Char :=
  if c = Char.ofNat 34 then [Char.ofNat 92, Char.ofNat 34]
  else if c = Char.ofNat 92 then [Char.ofNat 92, Char.ofNat 92]
  else if c = Char.ofNat 10 then [Char.ofNat 92, 'n']
  else if c = Char.ofNat 13 then [Char.ofNat 92, 'r']
  else if c = Char.ofNat 9 then [Char.ofNat 92, 't']
  else [c]

/-- Serialized JSON string literal, quotes included. -/
def jsonQuote (s : String) : String :=
  ⟨Char.ofNat 34 :: (s.data.flatMap jsonEscapeChar) ++ [Char.ofNat 34]⟩

mutual

/-- Model of the JavaScript builtin `JSON.stringify` on `JsonValue`. -/
def JsonValue.stringify : JsonValue → String
  | .null => "null"
  | .bool true => "true"
  | .bool false => "false"
  | .num n => intStr n
  | .str s => jsonQuote s
  | .arr xs => "[" ++ stringifyList xs ++ "]"
  | .obj kvs => "\x7b" ++ stringifyMembers kvs ++ "\x7d"

/-- Comma-separated serialization of array elements. -/
def stringifyList : List JsonValue → String
  | [] => ""
  | [x] => x.stringify
  | x :: xs => x.stringify ++ "," ++ stringifyList xs

/-- Comma-separated serialization of object members. -/
def stringifyMembers : List (String × JsonValue) → String
  | [] => ""
  | [(k, v)] => jsonQuote k ++ ":" ++ v.stringify
  | (k, v) :: kvs => jsonQuote k ++ ":" ++ v.stringify ++ "," ++ stringifyMembers kvs

end

/-- UTF-8 byte length of a string: model of `Buffer.byteLength(s)`. -/
def bufferByteLength (s : String) : Nat :=
  (s.data.map Char.utf8Size).sum

/-- The base64 alphabet in index order. -/
def b64Chars : List Char :=
  "ABCDEFGHIJKLMNOPQRSTUVWXYZabcdefghijklmnopqrstuvwxyz0123456789+/".data

/-- Character for a 6-bit value. -/
def sextetChar (n : Nat) : Char :=
  b64Chars.getD n (Char.ofNat 65)

/-- Index of a character in the base64 alphabet (0 when absent). -/
def charSextet (c : Char) : Nat :=
  (b64Chars.indexOf c)

/-- Base64 encoding of a byte list, processed three bytes at a time with
padding: model of `Buffer.prototype.toString` with encoding base64. -/
def b64EncodeChunks : List Nat → List Char
  | [] => []
  | [b0] => [sextetChar (b0 / 4), sextetChar (b0 % 4 * 16), '=', '=']
  | [b0, b1] =>
    [sextetChar (b0 / 4), sextetChar (b0 % 4 * 16 + b1 / 16), sextetChar (b1 % 16 * 4), '=']
  | b0 :: b1 :: b2 :: rest =>
    sextetChar (b0 / 4) :: sextetChar (b0 % 4 * 16 + b1 / 16) ::
      sextetChar (b1 % 16 * 4 + b2 / 64) :: sextetChar (b2 % 64) :: b64EncodeChunks rest

/-- Base64 encoding of a byte buffer as a string. -/
def bufferToBase64 (bs : List Nat) : String :=
  ⟨b64EncodeChunks bs⟩

/-- Base64 decoding, four characters at a time with padding handling:
model of `Buffer.from(s, 'base64')`. -/
def b64DecodeChunks : List Char → List Nat
  | c0 :: c1 :: c2 :: c3 :: rest =>
    if c2 = '=' then
      [charSextet c0 * 4 + charSextet c1 / 16]
    else if c3 = '=' then
      [charSextet c0 * 4 + charSextet c1 / 16,
       charSextet c1 % 16 * 16 + charSextet c2 / 4]
    else
      (charSextet c0 * 4 + charSextet c1 / 16) ::
        (charSextet c1 % 16 * 16 + charSextet c2 / 4) ::
        (charSextet c2 % 4 * 64 + charSextet c3) :: b64DecodeChunks rest
  | _ => []

/-- Base64 decoding of a string to a byte buffer. -/
def base64ToBuffer (s : String) : List Nat :=
  b64DecodeChunks s.data

/-- JSON whitespace. -/
def isJsonWs (c : Char) : Bool :=
  c = ' ' || c = Char.ofNat 9 || c = Char.ofNat 10 || c = Char.ofNat 13

/-- Skip leading JSON whitespace. -/
def skipWs : List Char → List Char
  | [] => []
  | c :: cs => if isJsonWs c then skipWs cs else c :: cs

/-- Parse a run of decimal digits, returning the accumulated value, the
digit count and the rest. -/
def parseDigits : List Char → Nat → Nat → Nat × Nat × List Char
  | c :: cs, acc, count =>
    if c.isDigit then parseDigits cs (acc * 10 + (c.toNat - 48)) (count + 1)
    else (acc, count, c :: cs)
  | [], acc, count => (acc, count, [])

/-- Parse the body of a JSON string literal after the opening quote,
handling the standard escape sequences. -/
def parseStringBody : Nat → List Char → Option (String × List Char)
  | 0, _ => none
  | _, [] => none
  | fuel + 1, c :: cs =>
    if c = Char.ofNat 34 then some ("", cs)
    else if c = Char.ofNat 92 then
      match cs with
      | [] => none
      | e :: cs2 =>
        let dec : Option Char :=
          if e = Char.ofNat 34 then some (Char.ofNat 34)
          else if e = Char.ofNat 92 then some (Char.ofNat 92)
          else if e = '/' then some '/'
          else if e = 'n' then some (Char.ofNat 10)
          else if e = 't' then some (Char.ofNat 9)
          else if e = 'r' then some (Char.ofNat 13)
          else if e = 'b' then some (Char.ofNat 8)
          else if e = 'f' then some (Char.ofNat 12)
          else none
        match dec with
        | some d =>
          match parseStringBody fuel cs2 with
          | some (s, rest) => some (⟨d :: s.data⟩, rest)
          | none => none
        | none => none
    else
      match parseStringBody fuel cs with
      | some (s, rest) => some (⟨c :: s.data⟩, rest)
      | none => none

mutual

/-- Fuel-based recursive-descent model of the JavaScript builtin
`JSON.parse` (integer part of numerals only; a fractional part or exponent
is consumed syntactically and discarded).  Returns the parsed value and
the unconsumed rest. -/
def parseJsonVal : Nat → List Char → Option (JsonValue × List Char)
  | 0, _ => none
  | fuel + 1, input =>
    match skipWs input with
    | [] => none
    | c :: cs =>
      if c = 'n' then
        match c :: cs with
        | 'n' :: 'u' :: 'l' :: 'l' :: rest => some (.null, rest)
        | _ => none
      else if c = 't' then
        match c :: cs with
        | 't' :: 'r' :: 'u' :: 'e' :: rest => some (.bool true, rest)
        | _ => none
      else if c = 'f' then
        match c :: cs with
        | 'f' :: 'a' :: 'l' :: 's' :: 'e' :: rest => some (.bool false, rest)
        | _ => none
      else if c = Char.ofNat 34 then
        match parseStringBody fuel cs with
        | some (s, rest) => some (.str s, rest)
        | none => none
      else if c = '[' then
        match skipWs cs with
        | ']' :: rest => some (.arr [], rest)
        | cs2 => match parseJsonItems fuel cs2 with
          | some (xs, rest) => some (.arr xs, rest)
          | none => none
      else if c = Char.ofNat 123 then
        match skipWs cs with
        | cs2 =>
          if cs2.head? = some (Char.ofNat 125) then some (.obj [], cs2.tail)
          else match parseJsonMembers fuel cs2 with
            | some (kvs, rest) => some (.obj kvs, rest)
            | none => none
      else if c = '-' || c.isDigit then
        let (sign, cs1) : Int × List Char := if c = '-' then (-1, cs) else (1, c :: cs)
        match cs1 with
        | d :: _ =>
          if d.isDigit then
            let (v, _, cs2) := parseDigits cs1 0 0
            let cs3 :=
              match cs2 with
              | '.' :: cs2a => (parseDigits cs2a 0 0).2.2
              | _ => cs2
            let cs4 :=
              match cs3 with
              | 'e' :: '+' :: cs3a => (parseDigits cs3a 0 0).2.2
              | 'e' :: '-' :: cs3a => (parseDigits cs3a 0 0).2.2
              | 'e' :: cs3a => (parseDigits cs3a 0 0).2.2
              | 'E' :: '+' :: cs3a => (parseDigits cs3a 0 0).2.2
              | 'E' :: '-' :: cs3a => (parseDigits cs3a 0 0).2.2
              | 'E' :: cs3a => (parseDigits cs3a 0 0).2.2
              | _ => cs3
            some (.num (sign * Int.ofNat v), cs4)
          else none
        | [] => none
      else none

/-- Comma-separated JSON array items up to the closing bracket. -/
def parseJsonItems : Nat → List Char → Option (List JsonValue × List Char)
  | 0, _ => none
  | fuel + 1, input =>
    match parseJsonVal fuel input with
    | some (v, rest) =>
      match skipWs rest with
      | ',' :: rest2 =>
        match parseJsonItems fuel rest2 with
        | some (xs, rest3) => some (v :: xs, rest3)
        | none => none
      | ']' :: rest2 => some ([v], rest2)
      | _ => none
    | none => none

/-- Comma-separated JSON object members up to the closing brace. -/
def parseJsonMembers : Nat → List Char → Option (List (String × JsonValue) × List Char)
  | 0, _ => none
  | fuel + 1, input =>
    match skipWs input with
    | c :: cs =>
      if c = Char.ofNat 34 then
        match parseStringBody fuel cs with
        | some (k, rest) =>
          match skipWs rest with
          | ':' :: rest2 =>
            match parseJsonVal fuel rest2 with
            | some (v, rest3) =>
              match skipWs rest3 with
              | ',' :: rest4 =>
                match parseJsonMembers fuel rest4 with
                | some (kvs, rest5) => some ((k, v) :: kvs, rest5)
                | none => none
              | rest4 =>
                if rest4.head? = some (Char.ofNat 125) then some ([(k, v)], rest4.tail)
                else none
            | none => none
          | _ => none
        | none => none
      else none
    | [] => none

end

/-- Model of the JavaScript builtin `JSON.parse`: parse a full value and
require only trailing whitespace after it. -/
def jsonParse (s : String) : Option JsonValue :=
  match parseJsonVal (s.data.length + 1) s.data with
  | some (v, rest) => if skipWs rest = [] then some v else none
  | none => none

/-- Decode one percent-escaped, plus-for-space form-urlencoded token:
model of the decoding performed by the `URLSearchParams` builtin
(bytes are mapped directly to code points; the claims only involve
ASCII). -/
def formDecodeChars : Nat → List Char → List Char
  | 0, cs => cs
  | _, [] => []
  | fuel + 1, c :: cs =>
    if c = '+' then ' ' :: formDecodeChars fuel cs
    else if c = '%' then
      match cs with
      | h1 :: h2 :: cs2 =>
        let isHex (h : Char) : Bool :=
          h.isDigit || ('a' ≤ h && h ≤ 'f') || ('A' ≤ h && h ≤ 'F')
        if isHex h1 && isHex h2 then
          let hv (h : Char) : Nat :=
            if h.isDigit then h.toNat - 48
            else if 'a' ≤ h && h ≤ 'f' then h.toNat - 87
            else h.toNat - 55
          Char.ofNat (hv h1 * 16 + hv h2) :: formDecodeChars fuel cs2
        else c :: formDecodeChars fuel cs
      | _ => c :: formDecodeChars fuel cs
    else c :: formDecodeChars fuel cs

/-- Decode a form-urlencoded token to a string. -/
def formDecodeStr (s : String) : String :=
  ⟨formDecodeChars s.data.length s.data⟩

/-- Model of the JavaScript builtin `new URLSearchParams(s).entries()`:
strip one leading question mark, split on ampersands, drop empty
segments, split each segment at the first equals sign, and decode names
and values. -/
def urlSearchParamsEntries (s : String) : List (String × String) :=
  let s1 : String := match s.data with
    | c :: rest => if c = '?' then ⟨rest⟩ else s
    | [] => s
  (jsSplit s1 "&").filterMap fun seg =>
    if seg = "" then none
    else
      match jsSplit seg "=" with
      | [] => none
      | name :: rest =>
        some (formDecodeStr name, formDecodeStr (String.intercalate "=" rest))

/-- First-occurrence deduplication: the key order of the `MultiMap`
index (each key listed at its first insertion). -/
def dedupFirst : List String → List String
  | [] => []
  | k :: ks => k :: (dedupFirst ks).filter fun k2 => k2 ≠ k

namespace RawHeaders

/-- `RawHeaders` is the ordered name/value list given to the constructor;
the lowercase-keyed multimap index built there is reflected by the
lowercase-comparing lookups below, which preserve insertion order per key
exactly as `MultiMap` does. -/
def getAll (headers : List (String × String)) (name : String) : List String :=
  (headers.filter fun h => lowerStr h.1 = lowerStr name).map Prod.snd

/-- `RawHeaders.get`: `null` when the name is absent, otherwise the values
joined with a newline for `set-cookie` (case-insensitive) and with a comma
and space otherwise. -/
def get (headers : List (String × String)) (name : String) : Option String :=
  let values := getAll headers name
  if values.isEmpty then none
  else some (String.intercalate (if lowerStr name = "set-cookie" then "\n" else ", ") values)

/-- The distinct lowercased names of a header list, in first-occurrence
order: the key set of the `MultiMap` index. -/
def lowerKeys (headers : List (String × String)) : List String :=
  dedupFirst (headers.map fun h => lowerStr h.1)

/-- `RawHeaders.headers()`: the lossy single-valued object view, one entry
per distinct lowercased name, each value produced by `get`. -/
def headersObj (headers : List (String × String)) : List (String × String) :=
  (lowerKeys headers).map fun k => (k, (get headers k).getD "")

end RawHeaders

/-- `RawHeaders._fromHeadersObjectLossy`: object entries taken in order as
a header array (the `undefined`-value filter is vacuous in the model,
where every value is a string). -/
def fromHeadersObjectLossy (headers : List (String × String)) : List (String × String) :=
  headers

/-- The immutable initializer facts of a `Request` used by the accessors
under verification.  `Buffer` post data is modelled by its UTF-8 string
contents. -/
structure RequestInit where
  url : String
  method : String
  postData : Option String
  headers : List (String × String)

/-- `SerializedFallbackOverrides`: the override overlay accumulated by
`_applyFallbackOverrides`. -/
structure SerializedFallbackOverrides where
  url : Option String := none
  method : Option String := none
  headers : Option (List (String × String)) := none
  postDataBuffer : Option String := none

/-- A client `Request`: initializer facts plus the override overlay. -/
structure Request where
  init : RequestInit
  overrides : SerializedFallbackOverrides := {}

/-- `Request.url()`: `this._fallbackOverrides.url || this._initializer.url`. -/
def Request.url (r : Request) : String :=
  jsOrStr r.overrides.url r.init.url

/-- `Request.method()`: `this._fallbackOverrides.method || this._initializer.method`. -/
def Request.method (r : Request) : String :=
  jsOrStr r.overrides.method r.init.method

/-- `Request.postDataBuffer()`: override buffer, else initializer post
data, else `null`; any present buffer (even empty) is truthy. -/
def Request.postDataBuffer (r : Request) : Option String :=
  r.overrides.postDataBuffer <|> r.init.postData

/-- `Request.postData()`: the chosen buffer decoded as UTF-8, with a final
`|| null` that maps the empty string to `null`. -/
def Request.postData (r : Request) : Option String :=
  match r.postDataBuffer with
  | none => none
  | some s => if s = "" then none else some s

/-- `Request.headers()`: the lossy object view of the override headers
when present, else of the provisional headers. -/
def Request.headers (r : Request) : List (String × String) :=
  match r.overrides.headers with
  | some hs => RawHeaders.headersObj (fromHeadersObjectLossy hs)
  | none => RawHeaders.headersObj r.init.headers

/-- `Request.postDataJSON()`: `null` without post data; a form-decoded
key/value object when the content-type includes
`application/x-www-form-urlencoded` (later values for one key overwrite
earlier ones, as the `entries[k] = v` loop does); otherwise `JSON.parse`,
turning a parse failure into an error. -/
def Request.postDataJSON (r : Request) : Except String (Option JsonValue) :=
  match r.postData with
  | none => .ok none
  | some postData =>
    let contentType := objLookup r.headers "content-type"
    if (match contentType with
        | some ct => jsIncludes ct "application/x-www-form-urlencoded"
        | none => false) then
      .ok (some (.obj (((urlSearchParamsEntries postData).foldl
        (fun acc kv => upsert acc kv.1 kv.2) []).map fun kv => (kv.1, .str kv.2))))
    else
      match jsonParse postData with
      | some v => .ok (some v)
      | none => .error ("POST data is not a valid JSON object: " ++ postData)

/-- The `postData` argument of `FallbackOverrides`: a string, a `Buffer`,
or a JSON-serializable value. -/
inductive PostDataArg where
  | str (s : String) : PostDataArg
  | buf (contents : String) : PostDataArg
  | json (j : JsonValue) : PostDataArg

/-- The argument of `_applyFallbackOverrides`. -/
structure FallbackOverridesArg where
  url : Option String := none
  method : Option String := none
  headers : Option (List (String × String)) := none
  postData : Option PostDataArg := none

/-- `Request._applyFallbackOverrides`: merge provided fields into the
overlay.  `url`, `method` and `headers` are stored only when truthy; post
data given as a string or `Buffer` is always stored (`isString` and
`instanceof` checks), while a serializable value is stored only when
truthy and is JSON-serialized. -/
def applyFallbackOverrides (cur : SerializedFallbackOverrides)
    (o : FallbackOverridesArg) : SerializedFallbackOverrides :=
  { url := match o.url with
      | some u => if u ≠ "" then some u else cur.url
      | none => cur.url
    method := match o.method with
      | some m => if m ≠ "" then some m else cur.method
      | none => cur.method
    headers := match o.headers with
      | some hs => some hs
      | none => cur.headers
    postDataBuffer := match o.postData with
      | some (.str s) => some s
      | some (.buf b) => some b
      | some (.json j) => if j.truthy then some j.stringify else cur.postDataBuffer
      | none => cur.postDataBuffer }

/-- The per-`Route` local state relevant to resolution: whether
`_handlingPromise` is non-null, and the `_didThrow` flag. -/
structure RouteLocal where
  handlingPromise : Bool
  didThrow : Bool
deriving DecidableEq

/-- The state of a dispatched `Route`, after `_startHandling` has
installed the handling promise. -/
def startedRoute : RouteLocal :=
  { handlingPromise := true, didThrow := false }

/-- The kinds of resolving calls on a `Route`. -/
inductive RKind where
  | rcontinue : RKind
  | rfulfill : RKind
  | rabort : RKind
  | rfallback : RKind
deriving DecidableEq

/-- Outcome of one resolving call. -/
inductive CallOutcome where
  | success : CallOutcome
  | alreadyHandled : CallOutcome
  | rejected : CallOutcome
deriving DecidableEq

/-- One resolving call run to completion with no interleaving, following
`_handleRoute` (for continue/fulfill/abort) and `fallback`: first
`_checkNotHandled` throws `Route is already handled!` when the handling
promise is null; otherwise the outbound command runs (`cmdOk` tells
whether it resolves) and only on resolution does `_reportHandled` null
the promise; a rejection sets `_didThrow` and leaves the promise
installed.  `fallback` has no outbound command and reports immediately. -/
def resolveCall (st : RouteLocal) (k : RKind) (cmdOk : Bool) :
    RouteLocal × CallOutcome :=
  if !st.handlingPromise then (st, .alreadyHandled)
  else
    match k with
    | .rfallback => ({ st with handlingPromise := false }, .success)
    | _ =>
      if cmdOk then ({ st with handlingPromise := false }, .success)
      else ({ st with didThrow := true }, .rejected)

/-- A sequence of non-overlapping resolving calls, each run to completion
before the next begins. -/
def runCalls (st : RouteLocal) : List (RKind × Bool) → RouteLocal × List CallOutcome
  | [] => (st, [])
  | (k, ok) :: rest =>
    let (st2, out) := resolveCall st k ok
    let (st3, outs) := runCalls st2 rest
    (st3, out :: outs)

/-- Phase of one in-flight resolving call in the interleaved model. -/
inductive CPhase where
  | ready : CPhase
  | inflight : CPhase
  | succeeded : CPhase
  | failedAlready : CPhase
  | rejectedCmd : CPhase
  | crashed : CPhase
deriving DecidableEq

/-- Interleaved state: the shared `Route` locals plus the phase of each
concurrent resolving call. -/
structure CState where
  promiseSet : Bool
  didThrow : Bool
  phases : List CPhase
deriving DecidableEq

/-- Scheduler actions: which call runs next and what it does. -/
inductive CAction where
  | start (i : Nat) : CAction
  | finishOk (i : Nat) : CAction
  | finishErr (i : Nat) : CAction
deriving DecidableEq

/-- One interleaved step: `start i` runs call `i`'s synchronous prefix
(the `_checkNotHandled` test, then the beginning of the outbound command
up to its first await); `finishOk i` resumes call `i` after its command
resolved, running `_reportHandled` — which nulls the promise when it is
set, and otherwise crashes on the `chain.resolve` of the already-nulled
`this._handlingPromise!`; `finishErr i` resumes call `i` after its
command rejected, setting `_didThrow`.  Actions not enabled in the
current state are no-ops. -/
def cstep (s : CState) : CAction → CState
  | .start i =>
    match s.phases.get? i with
    | some .ready =>
      if s.promiseSet then { s with phases := s.phases.set i .inflight }
      else { s with phases := s.phases.set i .failedAlready }
    | _ => s
  | .finishOk i =>
    match s.phases.get? i with
    | some .inflight =>
      if s.promiseSet then
        { s with promiseSet := false, phases := s.phases.set i .succeeded }
      else { s with phases := s.phases.set i .crashed }
    | _ => s
  | .finishErr i =>
    match s.phases.get? i with
    | some .inflight =>
      { s with didThrow := true, phases := s.phases.set i .rejectedCmd }
    | _ => s

/-- Run a schedule of interleaved actions. -/
def crun (s : CState) (actions : List CAction) : CState :=
  actions.foldl cstep s

/-- The facts of an `APIResponse` consumed by `_innerFulfill`: status,
header object, whether it lives on the same connection as the route, its
fetch uid, and its body bytes (modelled as UTF-8 string contents). -/
structure APIResponseModel where
  status : Nat
  headersObj : List (String × String)
  sameConnection : Bool
  fetchUid : String
  bodyContents : String

/-- The `body` option of `fulfill`: a string or a `Buffer`. -/
inductive FulfillBody where
  | str (s : String) : FulfillBody
  | buf (contents : String) : FulfillBody

/-- The options object of `Route.fulfill`. -/
structure FulfillOptions where
  response : Option APIResponseModel := none
  status : Option Nat := none
  headersObj : Option (List (String × String)) := none
  contentType : Option String := none
  body : Option FulfillBody := none
  json : Option JsonValue := none
  path : Option String := none

/-- The parameters of the outbound `fulfill` command. -/
structure FulfillParams where
  status : Nat
  headersArr : List (String × String)
  body : Option String
  isBase64 : Bool
  fetchResponseUid : Option String

/-- Model of the `headersObjectToArray` collaborator as called by
`_innerFulfill` (no separators): the object entries as a name/value
array. -/
def headersObjectToArray (headers : List (String × String)) : List (String × String) :=
  headers

/-- `Route._innerFulfill`, parameterized by the file-system collaborator
(`readFile` yields the file's bytes) and the mime-type lookup.  Follows
the source line by line: the `json`/`body` exclusivity assert, the
`response` defaults, body resolution (`path` / string body / `Buffer`
body), header lowercasing, the truthiness-guarded `content-type`
defaults, the `content-length` computation, and the `status || 200`
default. -/
def innerFulfill (readFile : String → List Nat) (mimeForPath : String → Option String)
    (options : FulfillOptions) : Except String FulfillParams := do
  let statusOption0 := options.status
  let headersOption0 := options.headersObj
  let body0 := options.body
  let body1 : Option FulfillBody ←
    match options.json with
    | some j =>
      if options.body.isSome then throw "Can specify either body or json parameters"
      else pure (some (.str j.stringify))
    | none => pure body0
  let (statusOption, headersOption, body2, fetchResponseUid) :
      Option Nat × Option (List (String × String)) × Option FulfillBody × Option String :=
    match options.response with
    | some resp =>
      let st := match statusOption0 with
        | some s => some s
        | none => some resp.status
      let ho := match headersOption0 with
        | some h => some h
        | none => some resp.headersObj
      if body1.isNone && options.path.isNone then
        if resp.sameConnection then (st, ho, body1, some resp.fetchUid)
        else (st, ho, some (.buf resp.bodyContents), none)
      else (st, ho, body1, none)
    | none => (statusOption0, headersOption0, body1, none)
  let (body3, isBase64, length) : Option String × Bool × Nat :=
    match options.path with
    | some p =>
      if p ≠ "" then
        let buffer := readFile p
        (some (bufferToBase64 buffer), true, buffer.length)
      else bodyResolve body2
    | none => bodyResolve body2
  let headers1 : List (String × String) :=
    (headersOption.getD []).foldl (fun acc kv => upsert acc (lowerStr kv.1) kv.2) []
  let ctTruthy : Bool := match options.contentType with
    | some ct => ct ≠ ""
    | none => false
  let pathTruthy : Bool := match options.path with
    | some p => p ≠ ""
    | none => false
  let headers2 : List (String × String) :=
    if ctTruthy then upsert headers1 "content-type" (options.contentType.getD "")
    else if (options.json.map JsonValue.truthy).getD false then
      upsert headers1 "content-type" "application/json"
    else if pathTruthy then
      upsert headers1 "content-type"
        (jsOrStr (mimeForPath (options.path.getD "")) "application/octet-stream")
    else headers1
  let headers3 : List (String × String) :=
    if length ≠ 0 ∧ ¬ (headers2.any fun kv => kv.1 = "content-length") then
      upsert headers2 "content-length" (natStr length)
    else headers2
  pure { status := match statusOption with
           | some s => if s ≠ 0 then s else 200
           | none => 200
         headersArr := headersObjectToArray headers3
         body := body3
         isBase64 := isBase64
         fetchResponseUid := fetchResponseUid }
where
  /-- The non-`path` body resolution arm: a string body keeps its text
  (`isBase64` false, UTF-8 byte length); a `Buffer` body (always truthy)
  is base64-encoded. -/
  bodyResolve : Option FulfillBody → Option String × Bool × Nat
    | some (.str s) => (some s, false, bufferByteLength s)
    | some (.buf b) =>
      (some (bufferToBase64 ((String.toUTF8 b).toList.map UInt8.toNat)), true,
        (String.toUTF8 b).size)
    | none => (none, false, 0)

/-- The `RouteHandler` counters relevant to expiry: completed-or-started
invocation count and the configured `times` budget. -/
structure RouteHandlerState where
  handledCount : Nat
  times : Nat
deriving DecidableEq

/-- `RouteHandler.willExpire()`: `this.handledCount + 1 >= this._times`. -/
def willExpire (h : RouteHandlerState) : Bool :=
  h.handledCount + 1 ≥ h.times

/-- The counter effect of `RouteHandler._handleInternal`, whose first
statement is `++this.handledCount`. -/
def handleInternalCount (h : RouteHandlerState) : RouteHandlerState :=
  { h with handledCount := h.handledCount + 1 }

/-- Modelled from the spec: the external dispatcher (the browser-context
`_onRoute` loop, not under `src/`) checks `willExpire()` before starting
a new invocation and unregisters the handler when it is true, while still
running the invocation being started.  Returns how many invocations run
over a stream of `n` matching interception events. -/
def dispatchEvents : RouteHandlerState → Bool → Nat → Nat
  | _, _, 0 => 0
  | h, registered, n + 1 =>
    if registered then
      1 + dispatchEvents (handleInternalCount h) (!(willExpire h)) n
    else 0

/-- Which callback slots of a `WebSocketRoute` hold installed handlers,
plus the `_connected` flag. -/
structure WsRouteState where
  onPageMessage : Bool := false
  onPageClose : Bool := false
  onServerMessage : Bool := false
  onServerClose : Bool := false
  connected : Bool := false

/-- Inbound channel events consumed by the `WebSocketRoute` constructor
handlers. -/
inductive WsEvent where
  | messageFromPage (message : String) (isBase64 : Bool) : WsEvent
  | messageFromServer (message : String) (isBase64 : Bool) : WsEvent
  | closePage (code : Option Nat) (reason : Option String) (wasClean : Bool) : WsEvent
  | closeServer (code : Option Nat) (reason : Option String) (wasClean : Bool) : WsEvent

/-- The immediate effect of one inbound event: delivery to an installed
handler, an outbound relay command, or nothing. -/
inductive WsAction where
  | deliverPageHandler (message : String) (isBase64 : Bool) : WsAction
  | deliverServerHandler (message : String) (isBase64 : Bool) : WsAction
  | deliverPageCloseHandler (code : Option Nat) (reason : Option String) : WsAction
  | deliverServerCloseHandler (code : Option Nat) (reason : Option String) : WsAction
  | cmdSendToServer (message : String) (isBase64 : Bool) : WsAction
  | cmdSendToPage (message : String) (isBase64 : Bool) : WsAction
  | cmdCloseServer (code : Option Nat) (reason : Option String) (wasClean : Bool) : WsAction
  | cmdClosePage (code : Option Nat) (reason : Option String) (wasClean : Bool) : WsAction
  | dropped : WsAction
deriving DecidableEq

/-- The four channel-event handlers installed by the `WebSocketRoute`
constructor: a page message goes to `_onPageMessage` when installed, is
relayed to the server only when `_connected`, and is otherwise dropped; a
server message goes to `_onServerMessage` or is relayed to the page
unconditionally; each close event goes to its handler or is relayed to
the opposite close command unconditionally. -/
def wsHandleEvent (st : WsRouteState) : WsEvent → WsAction
  | .messageFromPage m b =>
    if st.onPageMessage then .deliverPageHandler m b
    else if st.connected then .cmdSendToServer m b
    else .dropped
  | .messageFromServer m b =>
    if st.onServerMessage then .deliverServerHandler m b
    else .cmdSendToPage m b
  | .closePage c r w =>
    if st.onPageClose then .deliverPageCloseHandler c r
    else .cmdCloseServer c r w
  | .closeServer c r w =>
    if st.onServerClose then .deliverServerCloseHandler c r
    else .cmdClosePage c r w

/-- A WebSocket payload: text or binary bytes. -/
inductive WsPayload where
  | text (s : String) : WsPayload
  | binary (bs : List Nat) : WsPayload
deriving DecidableEq

/-- `WebSocketRoute.send` (and the server-side `send`): a string passes
through with `isBase64` false; a `Buffer` is base64-encoded with
`isBase64` true. -/
def wsSendEncode : WsPayload → String × Bool
  | .text s => (s, false)
  | .binary bs => (bufferToBase64 bs, true)

/-- Delivery of a received frame to a handler: the `isBase64` flag
selects base64 decoding back to bytes, as in the `messageFromPage` and
`messageFromServer` handlers. -/
def wsDeliverDecode : String × Bool → WsPayload
  | (m, true) => .binary (base64ToBuffer m)
  | (m, false) => .text m

/-- The redirect links of a set of `Request` objects created in order,
indexed by creation order: `redirFrom i` and `redirTo i` are the
`_redirectedFrom` and `_redirectedTo` of the `i`-th created request
(`none` for indices not yet created). -/
structure ReqStore where
  count : Nat
  redirFrom : Nat → Option Nat
  redirTo : Nat → Option Nat

/-- The `Request` constructor's link maintenance: the new request (index
`count`) records its `redirectedFrom`, both fields starting `null`
otherwise, and when `redirectedFrom` is present the older request's
`_redirectedTo` is pointed at the new one. -/
def newRequest (st : ReqStore) (redirectedFrom : Option Nat) : ReqStore :=
  let idx := st.count
  { count := st.count + 1
    redirFrom := fun i => if i = idx then redirectedFrom else st.redirFrom i
    redirTo := match redirectedFrom with
      | some j => fun i => if i = j then some idx else st.redirTo i
      | none => st.redirTo }

/-- `Request._finalRequest()`: follow `_redirectedTo` until null
(fuel-based; any fuel bounding the chain length suffices). -/
def finalRequest (st : ReqStore) : Nat → Nat → Nat
  | 0, i => i
  | fuel + 1, i =>
    match st.redirTo i with
    | some j => finalRequest st fuel j
    | none => i

/-- `Request.redirectedFrom()` of the `i`-th request. -/
def redirectedFrom (st : ReqStore) (i : Nat) : Option Nat :=
  st.redirFrom i

/-- `Request.redirectedTo()` of the `i`-th request. -/
def redirectedTo (st : ReqStore) (i : Nat) : Option Nat :=
  st.redirTo i

/-- A redirect chain of `n` requests: request `0` created with no
predecessor, each later request created with the previous one as its
`redirectedFrom` — as the network observer does for a redirect chain. -/
def chainStore : Nat → ReqStore
  | 0 => ⟨0, fun _ => none, fun _ => none⟩
  | n + 1 => newRequest (chainStore n) (if n = 0 then none else some (n - 1))

/-- Example request with a form-urlencoded body (spec test vector). -/
def exampleFormRequest : Request where
  init := { url := "u", method := "POST", postData := some "a=1&b=2",
            headers := [("content-type", "application/x-www-form-urlencoded")] }

/-- Example request with a JSON body and no content-type. -/
def exampleJsonRequest : Request where
  init := { url := "u", method := "POST", postData := some "\x7b\"a\":1\x7d",
            headers := [] }

/-- Example request with a body that parses neither as a form nor as
JSON. -/
def exampleBadRequest : Request where
  init := { url := "u", method := "POST", postData := some "not json", headers := [] }

/-- The options of a `fulfill` call carrying a `json` value and no
`body`, `path` or `response` option. -/
def jsonFulfillOptions (st : Option Nat) (ho : Option (List (String × String)))
    (ct : Option String) (j : JsonValue) : FulfillOptions :=
  { status := st, headersObj := ho, contentType := ct, json := some j }

/-- The caller headers of a fulfill call, lowercased into the headers
object as `_innerFulfill` does. -/
def fulfillBase (ho : Option (List (String × String))) : List (String × String) :=
  List.foldl (fun acc kv => upsert acc (lowerStr kv.1) kv.2) [] (ho.getD [])

/-- The `content-length` step of `_innerFulfill`'s header pipeline for a
string body: added when the byte length is nonzero and the key absent. -/
def fulfillCL (h2 : List (String × String)) (j : JsonValue) : List (String × String) :=
  if bufferByteLength j.stringify ≠ 0 ∧ ¬ (h2.any fun kv => kv.1 = "content-length") then
    upsert h2 "content-length" (natStr (bufferByteLength j.stringify))
  else h2

/-- The headers `_innerFulfill` sends for a `json` fulfill with no
`path`/`response`: caller headers lowercased, the truthiness-guarded
`content-type` defaults, then the `content-length` step.  This is the
header pipeline of `_innerFulfill` specialized to that configuration; the
equation is established against `innerFulfill` itself below. -/
def fulfillJsonHeaders (ho : Option (List (String × String))) (ct : Option String)
    (j : JsonValue) : List (String × String) :=
  fulfillCL
    (if (match ct with
        | some c => c ≠ ""
        | none => false : Bool) then
      upsert (fulfillBase ho) "content-type" (ct.getD "")
    else if j.truthy then upsert (fulfillBase ho) "content-type" "application/json"
    else fulfillBase ho) j

theorem resolveCall_closed (st : RouteLocal) (k : RKind) (ok : Bool)
    (h : st.handlingPromise = false) : resolveCall st k ok = (st, .alreadyHandled) := by
  simp [resolveCall, h]

theorem resolveCall_started_ok (k : RKind) :
    resolveCall startedRoute k true
      = ({ handlingPromise := false, didThrow := false }, .success) := by
  cases k <;> rfl

theorem runCalls_closed (st : RouteLocal) (h : st.handlingPromise = false)
    (ks : List RKind) (oks : List Bool) :
    (runCalls st (ks.zip oks)).2 = (ks.zip oks).map fun _ => CallOutcome.alreadyHandled := by
  induction ks generalizing st oks with
  | nil => simp [runCalls]
  | cons k ks ih =>
    cases oks with
    | nil => simp [runCalls]
    | cons ok oks =>
      simp only [List.zip_cons_cons, runCalls, resolveCall_closed st k ok h, List.map_cons]
      exact congrArg (CallOutcome.alreadyHandled :: ·) (ih st h oks)

/-- C1: contrary to the claim, the Handling-to-Handled transition happens
only after the outbound command resolves, so among two overlapping
resolving calls the second also passes the `_checkNotHandled` test: in
the schedule where both calls start before either command resolves, the
later call succeeds (and the first crashes on the nulled promise) — no
`AlreadyHandled` error is ever raised. -/
theorem route_concurrent_counterexample :
    (crun { promiseSet := true, didThrow := false, phases := [.ready, .ready] }
        [.start 0, .start 1]).phases = [.inflight, .inflight]
    ∧ (crun { promiseSet := true, didThrow := false, phases := [.ready, .ready] }
        [.start 0, .start 1, .finishOk 1, .finishOk 0]).phases
      = [.crashed, .succeeded] := by
  exact ⟨rfl, rfl⟩

/-- C1 (amended): for sequential resolving calls — each run to completion
before the next begins — whose outbound commands all resolve, exactly the
first call succeeds and every later one fails with the
`Route is already handled!` error; overlapping calls are not protected,
because the Handling-to-Handled flip happens after the outbound await. -/
theorem route_sequential_exactly_once (k : RKind) (ks : List RKind) :
    (runCalls startedRoute ((k :: ks).zip (List.replicate (ks.length + 1) true))).2
      = CallOutcome.success :: ks.map fun _ => CallOutcome.alreadyHandled := by
  have hz : (k :: ks).zip (List.replicate (ks.length + 1) true)
      = (k, true) :: ks.zip (List.replicate ks.length true) := by
    simp [List.replicate_succ]
  rw [hz]
  simp only [runCalls, resolveCall_started_ok k]
  refine congrArg (CallOutcome.success :: ·) ?_
  have h2 := runCalls_closed { handlingPromise := false, didThrow := false } rfl ks
    (List.replicate ks.length true)
  rw [h2]
  simp

/-- C2: contrary to the claim, a rejected resolving call leaves the
handling promise installed (the route is not in the Handled state), so
the next resolving call does not observe `AlreadyHandled` — it succeeds
instead. -/
theorem route_rejected_counterexample :
    (runCalls startedRoute [(.rcontinue, false), (.rcontinue, true)]).2
      = [.rejected, .success]
    ∧ (resolveCall startedRoute .rcontinue false).1.handlingPromise = true := by
  exact ⟨rfl, rfl⟩

/-- C2 (amended): when a resolving call's outbound command rejects,
`_reportHandled` never runs: the route keeps its handling promise
(state still Handling) with `_didThrow` set, and a subsequent resolving
call passes the `AlreadyHandled` check and can succeed. -/
theorem route_rejected_stays_handling (k : RKind) (h : k ≠ RKind.rfallback) :
    resolveCall startedRoute k false
      = ({ handlingPromise := true, didThrow := true }, .rejected)
    ∧ (resolveCall { handlingPromise := true, didThrow := true } k true).2
      = .success := by
  cases k
  case rfallback => exact absurd rfl h
  all_goals exact ⟨rfl, rfl⟩

/-- Witness for the C2 theorem at a concrete call kind. -/
theorem route_rejected_stays_handling_witness :
    resolveCall startedRoute .rcontinue false
      = ({ handlingPromise := true, didThrow := true }, .rejected)
    ∧ (resolveCall { handlingPromise := true, didThrow := true } .rcontinue true).2
      = .success :=
  route_rejected_stays_handling .rcontinue (by decide)

theorem dispatchEvents_unregistered (h : RouteHandlerState) (n : Nat) :
    dispatchEvents h false n = 0 := by
  cases n <;> simp [dispatchEvents]

/-- C4: contrary to the claim, a handler with an invocation budget of 2
reports `willExpire() = true` as soon as its first invocation has started
(`handledCount` is incremented at the start of `_handleInternal`, and
`willExpire` tests `handledCount + 1 >= times`). -/
theorem willExpire_counterexample :
    willExpire (handleInternalCount { handledCount := 0, times := 2 }) = true := by
  decide

/-- C4 (amended): with an invocation budget of 2, `willExpire()` is false
before any invocation has started and true from the start of the first
invocation onward; under the dispatcher contract — `willExpire()` checked
before each new invocation, unregistering the handler when true while
still running that invocation — exactly two invocations run, so a third
never runs. -/
theorem willExpire_budget_two (n : Nat) (h : 2 ≤ n) :
    willExpire { handledCount := 0, times := 2 } = false
    ∧ willExpire (handleInternalCount { handledCount := 0, times := 2 }) = true
    ∧ dispatchEvents { handledCount := 0, times := 2 } true n = 2 := by
  refine ⟨by decide, by decide, ?_⟩
  obtain ⟨m, rfl⟩ : ∃ m, n = m + 2 := ⟨n - 2, by omega⟩
  simp [dispatchEvents, handleInternalCount, willExpire, dispatchEvents_unregistered]

/-- Witness for the C4 theorem at three events. -/
theorem willExpire_budget_two_witness :
    willExpire { handledCount := 0, times := 2 } = false
    ∧ willExpire (handleInternalCount { handledCount := 0, times := 2 }) = true
    ∧ dispatchEvents { handledCount := 0, times := 2 } true 3 = 2 :=
  willExpire_budget_two 3 (by decide)

/-- C5: contrary to the claim, a `messageFromPage` event on a leg with no
installed handler is not forwarded to the server leg when
`connectToServer` was never called (`_connected` false): it is dropped. -/
theorem ws_forward_counterexample :
    wsHandleEvent {} (.messageFromPage "m" false) = .dropped
    ∧ wsHandleEvent {} (.messageFromPage "m" false) ≠ .cmdSendToServer "m" false := by
  exact ⟨rfl, by decide⟩

/-- C5 (amended): with no handler installed on either leg, a
`messageFromServer` event is forwarded to the page, a `closePage` event
closes the server leg and a `closeServer` event closes the page leg,
all unconditionally; a `messageFromPage` event is forwarded to the
server only when `_connected` is set, and is dropped otherwise. -/
theorem ws_default_forwarding (st : WsRouteState) (m : String) (b : Bool)
    (c : Option Nat) (r : Option String) (w : Bool)
    (h1 : st.onPageMessage = false) (h2 : st.onServerMessage = false)
    (h3 : st.onPageClose = false) (h4 : st.onServerClose = false) :
    wsHandleEvent st (.messageFromServer m b) = .cmdSendToPage m b
    ∧ wsHandleEvent st (.closePage c r w) = .cmdCloseServer c r w
    ∧ wsHandleEvent st (.closeServer c r w) = .cmdClosePage c r w
    ∧ wsHandleEvent st (.messageFromPage m b)
        = (if st.connected then .cmdSendToServer m b else .dropped) := by
  simp [wsHandleEvent, h1, h2, h3, h4]

/-- C7: `RawHeaders` lookups are case-insensitive; `getAll` preserves the
original insertion order (it is a sub-sequence of the stored value list,
and on the spec's example returns the values in order); `get` joins
multiple values with a newline for `set-cookie` (case-insensitive) and
with a comma and space otherwise, and returns null exactly when the name
is absent. -/
theorem rawHeaders_spec (hs : List (String × String)) (n1 n2 : String)
    (h : lowerStr n1 = lowerStr n2) :
    RawHeaders.getAll hs n1 = RawHeaders.getAll hs n2
    ∧ (RawHeaders.getAll hs n1).Sublist (hs.map Prod.snd)
    ∧ (RawHeaders.getAll hs n1 = [] → RawHeaders.get hs n1 = none)
    ∧ (RawHeaders.getAll hs n1 ≠ [] → RawHeaders.get hs n1 ≠ none)
    ∧ RawHeaders.getAll [("X-A", "1"), ("x-a", "2")] "X-a" = ["1", "2"]
    ∧ RawHeaders.get [("Set-Cookie", "a=1"), ("set-cookie", "b=2")] "Set-Cookie"
        = some "a=1\nb=2"
    ∧ RawHeaders.get [("x-a", "a=1"), ("x-a", "b=2")] "x-a" = some "a=1, b=2" := by
  refine ⟨?_, ?_, ?_, ?_, by decide, by decide, by decide⟩
  · unfold RawHeaders.getAll
    rw [h]
  · exact (List.filter_sublist hs).map Prod.snd
  · intro h0
    simp [RawHeaders.get, h0]
  · intro h0
    simp [RawHeaders.get, List.isEmpty_iff, h0]

/-- Witness for the C7 theorem at the spec's example headers. -/
theorem rawHeaders_spec_witness :
    RawHeaders.getAll [("X-A", "1"), ("x-a", "2")] "X-a"
      = RawHeaders.getAll [("X-A", "1"), ("x-a", "2")] "x-A" :=
  (rawHeaders_spec [("X-A", "1"), ("x-a", "2")] "X-a" "x-A" (by decide)).1

/-- C10: an override overlay holding the empty string for url or method
is ignored by the accessors (the `||` truthiness test), `postData()`
returns null when the chosen body is empty (the trailing `|| null`), and
`_applyFallbackOverrides` does not even store an empty url or method
override (its `if (overrides.url)` truthiness tests). -/
theorem overlay_empty_truthiness (i : RequestInit) (o : SerializedFallbackOverrides) :
    Request.url { init := i, overrides := { o with url := some "" } } = i.url
    ∧ Request.method { init := i, overrides := { o with method := some "" } } = i.method
    ∧ Request.postData { init := i, overrides := { o with postDataBuffer := some "" } } = none
    ∧ (i.postData = some "" →
        Request.postData { init := i, overrides := { o with postDataBuffer := none } } = none)
    ∧ (applyFallbackOverrides o { url := some "", method := some "" }).url = o.url
    ∧ (applyFallbackOverrides o { url := some "", method := some "" }).method = o.method := by
  refine ⟨rfl, rfl, rfl, ?_, by simp [applyFallbackOverrides], by simp [applyFallbackOverrides]⟩
  intro hp
  simp [Request.postData, Request.postDataBuffer, hp]

/-- Witness for the C10 theorem at a concrete request. -/
theorem overlay_empty_truthiness_witness :
    Request.postData { init := { url := "u", method := "GET", postData := some "",
                                 headers := [] },
                       overrides := { (({} : SerializedFallbackOverrides)) with
                                      postDataBuffer := none } } = none :=
  (overlay_empty_truthiness { url := "u", method := "GET", postData := some "", headers := [] }
    {}).2.2.2.1 rfl

theorem chainStore_count (n : Nat) : (chainStore n).count = n := by
  induction n with
  | zero => rfl
  | succ n ih => simp [chainStore, newRequest, ih]

theorem chainStore_redirTo (n i : Nat) :
    (chainStore n).redirTo i = if i + 1 < n then some (i + 1) else none := by
  induction n with
  | zero => simp [chainStore]
  | succ n ih =>
    by_cases hn : n = 0
    · subst hn
      have h1 : ¬ (i + 1 < 1) := by omega
      simp [chainStore, newRequest, h1]
    · have hc := chainStore_count n
      simp only [chainStore, newRequest, if_neg hn]
      rw [hc]
      by_cases hi : i = n - 1
      · subst hi
        have heq : n - 1 + 1 = n := by omega
        simp [hn, heq]
      · simp only [if_neg hi, ih]
        split <;> split <;> first | rfl | omega

theorem chainStore_redirFrom (n i : Nat) :
    (chainStore n).redirFrom i = if i = 0 ∨ n ≤ i then none else some (i - 1) := by
  induction n with
  | zero => simp [chainStore]
  | succ n ih =>
    have hc := chainStore_count n
    simp only [chainStore, newRequest]
    rw [hc]
    by_cases hi : i = n
    · rw [if_pos hi, hi]
      have hf : ¬ (n + 1 ≤ n) := by omega
      by_cases hn : n = 0
      · simp [hn]
      · simp [hn, hf]
    · simp only [if_neg hi, ih]
      split <;> split <;> first | rfl | omega

theorem finalRequest_chain (n : Nat) :
    ∀ fuel i, i < n → n - 1 - i ≤ fuel → finalRequest (chainStore n) fuel i = n - 1 := by
  intro fuel
  induction fuel with
  | zero =>
    intro i hi hf
    have hie : i = n - 1 := by omega
    rw [hie]
    rfl
  | succ fuel ih =>
    intro i hi hf
    rw [finalRequest, chainStore_redirTo]
    by_cases h : i + 1 < n
    · rw [if_pos h]
      exact ih (i + 1) h (by omega)
    · rw [if_neg h]
      show i = n - 1
      omega

/-- C8: in a redirect chain of `n` requests, `finalRequest()` from any
element reaches the chain tail (index `n - 1`), `redirectedFrom()` of a
non-head element is its immediate predecessor, and the chain head's
`redirectedFrom()` is null; in particular for a chain A, B, C of length
three, A's final request is C, C came from B, B came from A, and A came
from nothing. -/
theorem redirect_chain_spec (n i : Nat) (hi : i < n) :
    finalRequest (chainStore n) n i = n - 1
    ∧ redirectedFrom (chainStore n) i = (if i = 0 then none else some (i - 1))
    ∧ redirectedTo (chainStore n) i = (if i + 1 < n then some (i + 1) else none)
    ∧ finalRequest (chainStore 3) 3 0 = 2
    ∧ redirectedFrom (chainStore 3) 2 = some 1
    ∧ redirectedFrom (chainStore 3) 1 = some 0
    ∧ redirectedFrom (chainStore 3) 0 = none := by
  refine ⟨finalRequest_chain n n i hi (by omega), ?_, chainStore_redirTo n i,
    by decide, by decide, by decide, by decide⟩
  rw [redirectedFrom, chainStore_redirFrom]
  have hni : ¬ n ≤ i := by omega
  by_cases h0 : i = 0
  · simp [h0]
  · simp [h0, hni]

/-- Witness for the C8 theorem on the three-element chain. -/
theorem redirect_chain_spec_witness :
    finalRequest (chainStore 3) 3 0 = 3 - 1 :=
  (redirect_chain_spec 3 0 (by decide)).1

theorem charSextet_sextetChar : ∀ v < 64, charSextet (sextetChar v) = v ∧ sextetChar v ≠ '=' := by
  decide

theorem b64_decode_encode : ∀ bs : List Nat, (∀ b ∈ bs, b < 256) →
    b64DecodeChunks (b64EncodeChunks bs) = bs
  | [], _ => rfl
  | [b0], h => by
    have hb0 : b0 < 256 := h b0 (by simp)
    have h1 := charSextet_sextetChar (b0 / 4) (by omega)
    have h2 := charSextet_sextetChar (b0 % 4 * 16) (by omega)
    simp [b64EncodeChunks, b64DecodeChunks, h1.1, h2.1]
    omega
  | [b0, b1], h => by
    have hb0 : b0 < 256 := h b0 (by simp)
    have hb1 : b1 < 256 := h b1 (by simp)
    have h1 := charSextet_sextetChar (b0 / 4) (by omega)
    have h2 := charSextet_sextetChar (b0 % 4 * 16 + b1 / 16) (by omega)
    have h3 := charSextet_sextetChar (b1 % 16 * 4) (by omega)
    simp [b64EncodeChunks, b64DecodeChunks, h1.1, h2.1, h3.1, h3.2]
    omega
  | [b0, b1, b2], h => by
    have hb0 : b0 < 256 := h b0 (by simp)
    have hb1 : b1 < 256 := h b1 (by simp)
    have hb2 : b2 < 256 := h b2 (by simp)
    have h1 := charSextet_sextetChar (b0 / 4) (by omega)
    have h2 := charSextet_sextetChar (b0 % 4 * 16 + b1 / 16) (by omega)
    have h3 := charSextet_sextetChar (b1 % 16 * 4 + b2 / 64) (by omega)
    have h4 := charSextet_sextetChar (b2 % 64) (by omega)
    simp [b64EncodeChunks, b64DecodeChunks, h1.1, h2.1, h3.1, h4.1, h3.2, h4.2]
    omega
  | b0 :: b1 :: b2 :: b3 :: rest, h => by
    have hb0 : b0 < 256 := h b0 (by simp)
    have hb1 : b1 < 256 := h b1 (by simp)
    have hb2 : b2 < 256 := h b2 (by simp)
    have h1 := charSextet_sextetChar (b0 / 4) (by omega)
    have h2 := charSextet_sextetChar (b0 % 4 * 16 + b1 / 16) (by omega)
    have h3 := charSextet_sextetChar (b1 % 16 * 4 + b2 / 64) (by omega)
    have h4 := charSextet_sextetChar (b2 % 64) (by omega)
    have ih := b64_decode_encode (b3 :: rest) (fun b hb => h b (by simp at hb ⊢; tauto))
    simp [b64EncodeChunks, b64DecodeChunks, h1.1, h2.1, h3.1, h4.1, h3.2, h4.2, ih]
    omega

/-- C6: `postDataJSON()` returns the form-decoded key/value object when
the content-type includes `application/x-www-form-urlencoded`, otherwise
the body parsed as JSON, failing with the malformed-post-data error when
the parse fails, and null when there is no post data; on the spec's
examples: `a=1&b=2` with form content-type gives `a` mapped to `1` and
`b` to `2`, a JSON body with no such content-type parses, and `not json`
fails. -/
theorem postDataJSON_spec (r : Request) (s : String) (hs : r.postData = some s) :
    ((∃ ct, objLookup r.headers "content-type" = some ct
        ∧ jsIncludes ct "application/x-www-form-urlencoded" = true) →
      r.postDataJSON = .ok (some (.obj (((urlSearchParamsEntries s).foldl
        (fun acc kv => upsert acc kv.1 kv.2) []).map fun kv => (kv.1, .str kv.2)))))
    ∧ ((∀ ct, objLookup r.headers "content-type" = some ct →
          jsIncludes ct "application/x-www-form-urlencoded" = false) →
        (∀ v, jsonParse s = some v → r.postDataJSON = .ok (some v))
        ∧ (jsonParse s = none →
            r.postDataJSON = .error ("POST data is not a valid JSON object: " ++ s)))
    ∧ (∀ r2 : Request, r2.postData = none → r2.postDataJSON = .ok none)
    ∧ exampleFormRequest.postDataJSON
        = .ok (some (.obj [("a", .str "1"), ("b", .str "2")]))
    ∧ exampleJsonRequest.postDataJSON = .ok (some (.obj [("a", .num 1)]))
    ∧ exampleBadRequest.postDataJSON
        = .error "POST data is not a valid JSON object: not json" := by
  refine ⟨?_, ?_, ?_, by rfl, by rfl, by rfl⟩
  · rintro ⟨ct, hct, hinc⟩
    unfold Request.postDataJSON
    rw [hs]
    simp only [hct, hinc, if_true]
  · intro hno
    constructor
    · intro v hv
      unfold Request.postDataJSON
      rw [hs]
      rcases hol : objLookup r.headers "content-type" with _ | ct
      · simp only [hol, Bool.false_eq_true, if_false, hv]
      · simp only [hol, hno ct hol, Bool.false_eq_true, if_false, hv]
    · intro hv
      unfold Request.postDataJSON
      rw [hs]
      rcases hol : objLookup r.headers "content-type" with _ | ct
      · simp only [hol, Bool.false_eq_true, if_false, hv]
      · simp only [hol, hno ct hol, Bool.false_eq_true, if_false, hv]
  · intro r2 h2
    unfold Request.postDataJSON
    rw [h2]

/-- Witness for the C6 theorem at the form-urlencoded example request. -/
theorem postDataJSON_spec_witness :
    exampleFormRequest.postDataJSON
      = .ok (some (.obj (((urlSearchParamsEntries "a=1&b=2").foldl
          (fun acc kv => upsert acc kv.1 kv.2) []).map fun kv => (kv.1, .str kv.2)))) :=
  (postDataJSON_spec exampleFormRequest "a=1&b=2" rfl).1
    ⟨"application/x-www-form-urlencoded", rfl, rfl⟩

theorem mem_upsert (l : List (String × String)) (k v : String) (kv : String × String)
    (h : kv ∈ upsert l k v) : kv ∈ l ∨ kv = (k, v) := by
  unfold upsert at h
  split at h
  · rcases List.mem_map.mp h with ⟨p, hp, he⟩
    by_cases hpk : p.1 = k
    · right
      rw [← he, if_pos hpk]
    · left
      rw [← he, if_neg hpk]
      exact hp
  · rcases List.mem_append.mp h with h1 | h1
    · exact Or.inl h1
    · exact Or.inr (List.mem_singleton.mp h1)

theorem mem_foldl_upsert (l init : List (String × String)) (kv : String × String)
    (h : kv ∈ List.foldl (fun acc kv2 => upsert acc (lowerStr kv2.1) kv2.2) init l) :
    kv ∈ init ∨ ∃ kv0 ∈ l, kv.1 = lowerStr kv0.1 := by
  induction l generalizing init with
  | nil => exact Or.inl h
  | cons kv2 l ih =>
    rcases ih (upsert init (lowerStr kv2.1) kv2.2) h with h1 | h1
    · rcases mem_upsert _ _ _ _ h1 with h2 | h2
      · exact Or.inl h2
      · exact Or.inr ⟨kv2, by simp, by rw [h2]⟩
    · rcases h1 with ⟨kv0, hkv0, he⟩
      exact Or.inr ⟨kv0, by simp [hkv0], he⟩

theorem any_key_upsert_false (l : List (String × String)) (k v m : String)
    (hl : (l.any fun p => p.1 = m) = false) (hk : k ≠ m) :
    ((upsert l k v).any fun p => p.1 = m) = false := by
  rw [List.any_eq_false] at hl ⊢
  intro kv hkv
  rcases mem_upsert l k v kv hkv with h1 | h1
  · exact hl kv h1
  · simp [h1]
    exact hk

theorem any_key_foldl_upsert_false (l init : List (String × String)) (m : String)
    (hin : (init.any fun p => p.1 = m) = false)
    (hl : ∀ kv ∈ l, lowerStr kv.1 ≠ m) :
    ((List.foldl (fun acc kv => upsert acc (lowerStr kv.1) kv.2) init l).any
      fun p => p.1 = m) = false := by
  induction l generalizing init with
  | nil => exact hin
  | cons kv l ih =>
    simp only [List.foldl_cons]
    exact ih (upsert init (lowerStr kv.1) kv.2)
      (any_key_upsert_false init (lowerStr kv.1) kv.2 m hin (hl kv (by simp)))
      (fun kv2 h2 => hl kv2 (by simp [h2]))

theorem find?_map_self (l : List (String × String)) (k v : String)
    (h : (l.any fun p => p.1 = k) = true) :
    ((l.map fun p => if p.1 = k then (k, v) else p).find? fun p => p.1 = k) = some (k, v) := by
  induction l with
  | nil => simp at h
  | cons p l ih =>
    by_cases hp : p.1 = k
    · simp [List.find?, hp]
    · have h2 : (l.any fun p => p.1 = k) = true := by
        simpa [hp] using h
      simpa [List.find?, hp] using ih h2

theorem find?_map_other (l : List (String × String)) (k v m : String) (hm : m ≠ k) :
    ((l.map fun p => if p.1 = k then (k, v) else p).find? fun p => p.1 = m)
      = l.find? fun p => p.1 = m := by
  induction l with
  | nil => rfl
  | cons p l ih =>
    by_cases hp : p.1 = k
    · have hpm : ¬ p.1 = m := by
        rw [hp]
        exact fun he => hm he.symm
      simpa [List.find?, hp, hpm, hm, Ne.symm hm] using ih
    · by_cases hpm : p.1 = m
      · simp [List.find?, hp, hpm, hm]
      · simpa [List.find?, hp, hpm] using ih

theorem find?_none_append :
    ∀ (l l2 : List (String × String)) (p : String × String → Bool),
      l.find? p = none → (l ++ l2).find? p = l2.find? p
  | [], _, _, _ => rfl
  | a :: l, l2, p, h => by
    have h2 := List.find?_eq_none.mp h
    rw [List.cons_append, List.find?_cons_of_neg _ (h2 a (by simp))]
    exact find?_none_append l l2 p
      (List.find?_eq_none.mpr fun x hx => h2 x (by simp [hx]))

theorem find?_some_append :
    ∀ (l l2 : List (String × String)) (p : String × String → Bool) (x : String × String),
      l.find? p = some x → (l ++ l2).find? p = some x
  | [], _, _, _, h => by simp [List.find?] at h
  | a :: l, l2, p, x, h => by
    cases hpa : p a with
    | false =>
      rw [List.find?_cons_of_neg _ (by simp [hpa])] at h
      rw [List.cons_append, List.find?_cons_of_neg _ (by simp [hpa])]
      exact find?_some_append l l2 p x h
    | true =>
      rw [List.find?_cons_of_pos _ hpa] at h
      rw [List.cons_append, List.find?_cons_of_pos _ hpa]
      exact h

theorem find?_upsert_self (l : List (String × String)) (k v : String) :
    ((upsert l k v).find? fun p => p.1 = k) = some (k, v) := by
  unfold upsert
  split
  case isTrue h =>
    exact find?_map_self l k v h
  case isFalse h =>
    have hn : (l.find? fun p => decide (p.1 = k)) = none := by
      rw [Bool.not_eq_true, List.any_eq_false] at h
      rw [List.find?_eq_none]
      intro p hp
      simpa using h p hp
    rw [find?_none_append l [(k, v)] _ hn]
    simp [List.find?]

theorem find?_upsert_other (l : List (String × String)) (k v m : String) (hm : m ≠ k) :
    ((upsert l k v).find? fun p => p.1 = m) = l.find? fun p => p.1 = m := by
  unfold upsert
  split
  · exact find?_map_other l k v m hm
  · rcases hf : l.find? fun p => decide (p.1 = m) with _ | p
    · rw [find?_none_append l [(k, v)] _ hf, hf]
      simp [List.find?, Ne.symm hm]
    · rw [find?_some_append l [(k, v)] _ p hf, hf]

theorem objLookup_upsert_self (l : List (String × String)) (k v : String) :
    objLookup (upsert l k v) k = some v := by
  unfold objLookup
  rw [find?_upsert_self]

theorem objLookup_upsert_other (l : List (String × String)) (k v m : String) (hm : m ≠ k) :
    objLookup (upsert l k v) m = objLookup l m := by
  unfold objLookup
  rw [find?_upsert_other l k v m hm]

theorem dataAppend (a b : String) : (a ++ b).data = a.data ++ b.data := by
  cases a
  cases b
  rfl

theorem natDigitsAux_ne_nil (fuel n : Nat) : natDigitsAux (fuel + 1) n ≠ [] := by
  unfold natDigitsAux
  split
  · simp
  · simp

theorem stringify_data_ne_nil (j : JsonValue) : (JsonValue.stringify j).data ≠ [] := by
  cases j with
  | null => decide
  | bool b => cases b <;> decide
  | num n =>
    show (intStr n).data ≠ []
    unfold intStr
    split
    · rw [dataAppend]
      simp only [ne_eq, List.append_eq_nil]
      intro ⟨h1, h2⟩
      exact natDigitsAux_ne_nil _ _ h2
    · exact natDigitsAux_ne_nil _ _
  | str s =>
    show (jsonQuote s).data ≠ []
    unfold jsonQuote
    simp
  | arr xs =>
    show ("[" ++ stringifyList xs ++ "]").data ≠ []
    rw [dataAppend, dataAppend]
    simp
  | obj kvs =>
    show ("\x7b" ++ stringifyMembers kvs ++ "\x7d").data ≠ []
    rw [dataAppend, dataAppend]
    simp

theorem bufferByteLength_stringify_pos (j : JsonValue) :
    bufferByteLength (JsonValue.stringify j) ≠ 0 := by
  unfold bufferByteLength
  rcases hd : (JsonValue.stringify j).data with _ | ⟨c, cs⟩
  · exact absurd hd (stringify_data_ne_nil j)
  · have hc := Char.utf8Size_pos c
    simp only [List.map_cons, List.sum_cons]
    omega

theorem innerFulfill_json_reduce (rf : String → List Nat) (mf : String → Option String)
    (st : Option Nat) (ho : Option (List (String × String))) (ct : Option String)
    (j : JsonValue) :
    innerFulfill rf mf (jsonFulfillOptions st ho ct j)
      = .ok { status := (match st with
                | some s => if s ≠ 0 then s else 200
                | none => 200)
              headersArr := headersObjectToArray (fulfillJsonHeaders ho ct j)
              body := some j.stringify
              isBase64 := false
              fetchResponseUid := none } := rfl

/-- C3: contrary to the claim, `fulfill` with the falsy json value `0`
sends no `content-type` header at all: the `else if (options.json)`
default is a truthiness test, so the serialized body `"0"` goes out with
only a `content-length` header. -/
theorem fulfill_json_counterexample :
    innerFulfill (fun _ => []) (fun _ => none) { json := some (JsonValue.num 0) }
      = .ok { status := 200, headersArr := [("content-length", "1")], body := some "0",
              isBase64 := false, fetchResponseUid := none }
    ∧ objLookup [("content-length", "1")] "content-type" = none := ⟨rfl, rfl⟩

/-- C3 (amended): for every `fulfill` call with a `json` option and no
`path` or `response` option: it fails when `body` is also given;
otherwise the sent body is the JSON serialization with `isBase64` false,
the sent headers contain `content-type: application/json` whenever the
caller did not set a (nonempty) `contentType` option and the json value
is truthy, `content-length` is the serialized body's byte length when no
caller header lowercases to `content-length`, the status defaults to 200
when unset, and every sent header name is a lowercased caller name or
one of the two literal lowercase defaults. -/
theorem fulfill_json_spec (rf : String → List Nat) (mf : String → Option String)
    (st : Option Nat) (ho : Option (List (String × String))) (ct : Option String)
    (j : JsonValue) :
    (∀ b : FulfillBody,
      innerFulfill rf mf { jsonFulfillOptions st ho ct j with body := some b }
        = .error "Can specify either body or json parameters")
    ∧ (innerFulfill rf mf (jsonFulfillOptions st ho ct j)).map (fun p => p.body)
        = .ok (some j.stringify)
    ∧ (innerFulfill rf mf (jsonFulfillOptions st ho ct j)).map (fun p => p.isBase64)
        = .ok false
    ∧ (st = none →
        (innerFulfill rf mf (jsonFulfillOptions st ho ct j)).map (fun p => p.status)
          = .ok 200)
    ∧ ((ct = none ∨ ct = some "") → j.truthy = true →
        (innerFulfill rf mf (jsonFulfillOptions st ho ct j)).map
            (fun p => objLookup p.headersArr "content-type")
          = .ok (some "application/json"))
    ∧ ((∀ kv ∈ ho.getD [], lowerStr kv.1 ≠ "content-length") →
        (innerFulfill rf mf (jsonFulfillOptions st ho ct j)).map
            (fun p => objLookup p.headersArr "content-length")
          = .ok (some (natStr (bufferByteLength j.stringify))))
    ∧ (∀ p, innerFulfill rf mf (jsonFulfillOptions st ho ct j) = .ok p →
        ∀ kv ∈ p.headersArr,
          (∃ kv0 ∈ ho.getD [], kv.1 = lowerStr kv0.1)
          ∨ kv.1 = "content-type" ∨ kv.1 = "content-length") := by
  refine ⟨fun b => rfl, rfl, rfl, ?_, ?_, ?_, ?_⟩
  · rintro rfl
    rfl
  · rintro (rfl | rfl) htr
    · rw [innerFulfill_json_reduce]
      show Except.ok (objLookup (headersObjectToArray (fulfillJsonHeaders ho none j))
        "content-type") = Except.ok (some "application/json")
      unfold fulfillJsonHeaders headersObjectToArray fulfillCL
      simp only [htr, Bool.false_eq_true, if_false, if_true]
      split
      · rw [objLookup_upsert_other _ _ _ _ (by decide), objLookup_upsert_self]
      · rw [objLookup_upsert_self]
    · rw [innerFulfill_json_reduce]
      show Except.ok (objLookup (headersObjectToArray (fulfillJsonHeaders ho none j))
        "content-type") = Except.ok (some "application/json")
      unfold fulfillJsonHeaders headersObjectToArray fulfillCL
      simp only [htr, Bool.false_eq_true, if_false, if_true]
      split
      · rw [objLookup_upsert_other _ _ _ _ (by decide), objLookup_upsert_self]
      · rw [objLookup_upsert_self]
  · intro hho
    rw [innerFulfill_json_reduce]
    show Except.ok (objLookup (headersObjectToArray (fulfillJsonHeaders ho ct j))
        "content-length")
      = Except.ok (some (natStr (bufferByteLength j.stringify)))
    have hbase : ((fulfillBase ho).any fun p => p.1 = "content-length") = false := by
      unfold fulfillBase
      exact any_key_foldl_upsert_false _ [] _ rfl hho
    have hcl : ∀ h2 : List (String × String),
        (h2.any fun p => p.1 = "content-length") = false →
        objLookup (fulfillCL h2 j) "content-length"
          = some (natStr (bufferByteLength j.stringify)) := by
      intro h2 hany
      unfold fulfillCL
      rw [if_pos ⟨bufferByteLength_stringify_pos j, by simp [hany]⟩]
      exact objLookup_upsert_self _ _ _
    unfold fulfillJsonHeaders headersObjectToArray
    split
    · exact congrArg Except.ok (hcl _ (any_key_upsert_false _ _ _ _ hbase (by decide)))
    · split
      · exact congrArg Except.ok (hcl _ (any_key_upsert_false _ _ _ _ hbase (by decide)))
      · exact congrArg Except.ok (hcl _ hbase)
  · intro p hp kv hkv
    rw [innerFulfill_json_reduce] at hp
    cases (Except.ok.injEq _ _).mp hp
    have hkv2 : kv ∈ fulfillJsonHeaders ho ct j := by
      simpa [headersObjectToArray] using hkv
    have hbase : ∀ kv2 : String × String, kv2 ∈ fulfillBase ho →
        ∃ kv0 ∈ ho.getD [], kv2.1 = lowerStr kv0.1 := by
      intro kv2 h2
      unfold fulfillBase at h2
      rcases mem_foldl_upsert _ [] kv2 h2 with h3 | h3
      · simp at h3
      · exact h3
    have hcl : ∀ h2 : List (String × String), kv ∈ fulfillCL h2 j →
        kv ∈ h2 ∨ kv.1 = "content-length" := by
      intro h2 hm
      unfold fulfillCL at hm
      revert hm
      split
      · intro hm
        rcases mem_upsert _ _ _ _ hm with h3 | h3
        · exact Or.inl h3
        · exact Or.inr (by rw [h3])
      · exact fun hm => Or.inl hm
    unfold fulfillJsonHeaders at hkv2
    rcases hcl _ hkv2 with h3 | h3
    · revert h3
      split
      · intro h3
        rcases mem_upsert _ _ _ _ h3 with h4 | h4
        · exact Or.inl (hbase kv h4)
        · exact Or.inr (Or.inl (by rw [h4]))
      · split
        · intro h3
          rcases mem_upsert _ _ _ _ h3 with h4 | h4
          · exact Or.inl (hbase kv h4)
          · exact Or.inr (Or.inl (by rw [h4]))
        · exact fun h3 => Or.inl (hbase kv h3)
    · exact Or.inr (Or.inr h3)

/-- Witness for the C3 theorem at a truthy json object, once with no
contentType option and once with the falsy `contentType: ""`. -/
theorem fulfill_json_spec_witness :
    (innerFulfill (fun _ => []) (fun _ => none)
        (jsonFulfillOptions none none none (JsonValue.obj [("a", JsonValue.num 1)]))).map
        (fun p => objLookup p.headersArr "content-type") = .ok (some "application/json")
    ∧ (innerFulfill (fun _ => []) (fun _ => none)
        (jsonFulfillOptions none none (some "") (JsonValue.obj [("a", JsonValue.num 1)]))).map
        (fun p => objLookup p.headersArr "content-type") = .ok (some "application/json")
    ∧ (innerFulfill (fun _ => []) (fun _ => none)
        (jsonFulfillOptions none none none (JsonValue.obj [("a", JsonValue.num 1)]))).map
        (fun p => p.body)
        = .ok (some (JsonValue.stringify (JsonValue.obj [("a", JsonValue.num 1)]))) :=
  ⟨(fulfill_json_spec (fun _ => []) (fun _ => none) none none none
      (JsonValue.obj [("a", JsonValue.num 1)])).2.2.2.2.1 (Or.inl rfl) rfl,
   (fulfill_json_spec (fun _ => []) (fun _ => none) none none (some "")
      (JsonValue.obj [("a", JsonValue.num 1)])).2.2.2.2.1 (Or.inr rfl) rfl,
   (fulfill_json_spec (fun _ => []) (fun _ => none) none none none
      (JsonValue.obj [("a", JsonValue.num 1)])).2.1⟩

/-- C9: a binary payload sent through the relay is base64-encoded with
the `isBase64` flag set, and decoding on delivery reproduces the
identical byte sequence; a text payload passes through unencoded with
`isBase64` false. -/
theorem ws_relay_roundtrip (bs : List Nat) (s : String) (h : ∀ b ∈ bs, b < 256) :
    wsDeliverDecode (wsSendEncode (.binary bs)) = .binary bs
    ∧ (wsSendEncode (.binary bs)).2 = true
    ∧ wsDeliverDecode (wsSendEncode (.text s)) = .text s
    ∧ (wsSendEncode (.text s)).2 = false := by
  refine ⟨?_, rfl, rfl, rfl⟩
  simp only [wsSendEncode, wsDeliverDecode, base64ToBuffer, bufferToBase64]
  rw [b64_decode_encode bs h]

/-- Witness for the C9 theorem at the spec's example frame. -/
theorem ws_relay_roundtrip_witness :
    wsDeliverDecode (wsSendEncode (.binary [0, 1, 2])) = .binary [0, 1, 2] :=
  (ws_relay_roundtrip [0, 1, 2] "hello" (by decide)).1

/-- Witness for the C5 theorem at a concrete connected state. -/
theorem ws_default_forwarding_witness :
    wsHandleEvent { connected := true } (.messageFromServer "m" true) = .cmdSendToPage "m" true
    ∧ wsHandleEvent { connected := true } (.closePage (some 1000) none true)
        = .cmdCloseServer (some 1000) none true
    ∧ wsHandleEvent { connected := true } (.closeServer none none false)
        = .cmdClosePage none none false
    ∧ wsHandleEvent { connected := true } (.messageFromPage "m" true)
        = (if ({ connected := true } : WsRouteState).connected
           then .cmdSendToServer "m" true else .dropped) := by
  have h := ws_default_forwarding { connected := true } "m" true (some 1000) none true
    rfl rfl rfl rfl
  have h2 := ws_default_forwarding { connected := true } "m" true none none false
    rfl rfl rfl rfl
  exact ⟨h.1, h.2.1, h2.2.2.1, h.2.2.2⟩

end PwNetwork
